import Mathlib

/-!
Verification development for the `k8s-controller` repository.

The Go sources are shallowly embedded as Lean definitions:

* `pkg/ctrl/deployment_controller.go` — `DeploymentReconciler.Reconcile`,
  `logDeploymentEvent`, `AddDeploymentController` (the configured
  `MaxConcurrentReconciles`).
* `pkg/informer/informer.go` — `NewDeploymentInformer`, the two
  `StartDeploymentInformer` variants, `GetDeploymentNames`, `GetPodNames`,
  and the update event handler.
* `cmd/list.go` / `cmd/server.go` — `getKubeconfigPath`,
  `getInformerKubeconfigPath`.

Machine integers (`int32` replica counts) are modelled as `Int`; the values
involved are far from the overflow boundary and no arithmetic is performed
on them by the embedded code, only comparisons.  Logging is modelled by the
list of semantic records a call emits; purely informational log lines (the
unconditional "Deployment status" line, container-resource lines) are
identity bookkeeping and carry no derived signal.

Components whose executable code lives in the `controller-runtime` /
`client-go` libraries rather than in this repository (the leader-election
loop behind `manager.Options.LeaderElection`, the work-queue behind
`controller.Options`) are modelled from the specification as explicit
transition systems; each such definition is marked `Modelled from the
spec:` in its doc comment.
-/

namespace K8sController

/-- One entry of `deployment.Status.Conditions`
(`appsv1.DeploymentCondition`): type, status, reason, message. -/
structure DeploymentCondition where
  ctype : String
  status : String
  reason : String
  message : String
  deriving DecidableEq, Repr

/-- The fields of an `appsv1.Deployment` that the embedded code reads.
`specReplicas` models the pointer `Spec.Replicas` (`none` = nil pointer);
`resourceVersion` is the opaque version marker. -/
structure DeploymentSnap where
  name : String
  nspace : String
  resourceVersion : String
  specReplicas : Option Int
  currentReplicas : Int
  readyReplicas : Int
  availableReplicas : Int
  updatedReplicas : Int
  conditions : List DeploymentCondition
  deriving DecidableEq, Repr

/-- Semantic signals derived from a snapshot, as in the spec's
`DerivedSignal` tagged variant.  `scaleUp`/`scaleDown` carry the from/to
replica pair; `conditionChanged` carries the condition's type, status and
reason. -/
inductive DerivedSignal where
  | scaleUp (fromReplicas toReplicas : Int)
  | scaleDown (fromReplicas toReplicas : Int)
  | conditionChanged (ctype status reason : String)
  deriving DecidableEq, Repr

/-- The scaling block of `logDeploymentEvent`
(`pkg/ctrl/deployment_controller.go:72-89`): with
`desiredReplicas := *Spec.Replicas` (0 when nil) and
`currentReplicas := Status.Replicas`, a "scaling UP detected" record is
logged when `current < desired` and a "scaling DOWN detected" record when
`current > desired`, both with `from_replicas = current`,
`to_replicas = desired`. -/
def scaleSignals (d : DeploymentSnap) : List DerivedSignal :=
  let desiredReplicas := d.specReplicas.getD 0
  let currentReplicas := d.currentReplicas
  if currentReplicas ≠ desiredReplicas then
    if currentReplicas < desiredReplicas then
      [.scaleUp currentReplicas desiredReplicas]
    else if currentReplicas > desiredReplicas then
      [.scaleDown currentReplicas desiredReplicas]
    else []
  else []

/-- The conditions loop of `logDeploymentEvent`
(`pkg/ctrl/deployment_controller.go:92-102`): one "Deployment condition"
record is logged for every entry of `Status.Conditions`, unconditionally. -/
def conditionSignals (d : DeploymentSnap) : List DerivedSignal :=
  d.conditions.map fun c => .conditionChanged c.ctype c.status c.reason

/-- All derived signals emitted by one call of
`DeploymentReconciler.logDeploymentEvent`
(`pkg/ctrl/deployment_controller.go:46-118`), in emission order: the
scaling block, then the conditions loop.  The unconditional
"Deployment status" line and the container-resource lines carry no derived
signal. -/
def logDeploymentEvent (d : DeploymentSnap) : List DerivedSignal :=
  scaleSignals d ++ conditionSignals d

/-- An error returned by the client `Get` call inside `Reconcile`.
`isNotFound` is what `apierrors.IsNotFound` would report for it. -/
structure FetchError where
  isNotFound : Bool
  msg : String
  deriving DecidableEq, Repr

/-- `client.IgnoreNotFound`: returns `none` (Go `nil`) exactly when the
error is a NotFound error, and the error itself otherwise. -/
def ignoreNotFound (e : FetchError) : Option FetchError :=
  if e.isNotFound then none else some e

/-- `ctrl.Result`: the zero value `{}` requests no requeue. -/
structure ReconcileResult where
  requeue : Bool
  requeueAfterNanos : Int
  deriving DecidableEq, Repr

/-- The zero `ctrl.Result{}` value returned on every path of `Reconcile`. -/
def emptyResult : ReconcileResult := ⟨false, 0⟩

/-- `DeploymentReconciler.Reconcile`
(`pkg/ctrl/deployment_controller.go:21-44`), parameterised by the outcome
of the client `Get` fetch.  Returns the `ctrl.Result`, the returned error
(`none` = Go `nil`), and the derived signals logged on the success path.
On a fetch error: if `client.IgnoreNotFound(err) == nil` the deployment
was deleted and `(ctrl.Result{}, nil)` is returned; otherwise the error is
propagated. On success, `logDeploymentEvent` runs. -/
def Reconcile (fetch : Except FetchError DeploymentSnap) :
    ReconcileResult × Option FetchError × List DerivedSignal :=
  match fetch with
  | .error e =>
    match ignoreNotFound e with
    | none => (emptyResult, none, [])
    | some e => (emptyResult, some e, [])
  | .ok d => (emptyResult, none, logDeploymentEvent d)

/-- Configuration for the informer (`pkg/informer/informer.go`,
`InformerConfig`): kubeconfig path, in-cluster flag, namespace, resync
period in nanoseconds (Go `time.Duration`). -/
structure InformerConfig where
  kubeconfig : String
  inCluster : Bool
  nspace : String
  resyncTimeNanos : Int
  deriving DecidableEq, Repr

/-- Outcomes of the external calls `NewDeploymentInformer` performs:
whether `rest.InClusterConfig` succeeds, whether
`clientcmd.BuildConfigFromFlags` succeeds on the configured path, and
whether `kubernetes.NewForConfig` succeeds. -/
structure KubeEnv where
  inClusterConfigOk : Bool
  kubeconfigBuildOk : Bool
  newForConfigOk : Bool
  deriving DecidableEq, Repr

/-- The state held by a constructed `DeploymentInformer`: the namespace it
watches and the effective resync period of its factory. -/
structure DeploymentInformer where
  nspace : String
  resyncTimeNanos : Int
  deriving DecidableEq, Repr

/-- Go `30 * time.Second` in nanoseconds. -/
def thirtySecondsNanos : Int := 30 * 1000000000

/-- `NewDeploymentInformer` (`pkg/informer/informer.go:188-237`): choose
the authentication method — in-cluster when `config.InCluster`, else the
kubeconfig path when non-empty, else fail with
"either kubeconfig path or in-cluster mode must be specified"; then build
the clientset; a zero resync time defaults to 30 seconds.  Every failure
is returned to the caller as an error; the function performs no retry. -/
def NewDeploymentInformer (env : KubeEnv) (config : InformerConfig) :
    Except String DeploymentInformer :=
  let auth : Except String Unit :=
    if config.inCluster then
      if env.inClusterConfigOk then .ok ()
      else .error "failed to get in-cluster config"
    else if config.kubeconfig ≠ "" then
      if env.kubeconfigBuildOk then .ok ()
      else .error "failed to build config from kubeconfig"
    else .error "either kubeconfig path or in-cluster mode must be specified"
  match auth with
  | .error e => .error e
  | .ok _ =>
    if env.newForConfigOk then
      let resync := if config.resyncTimeNanos = 0 then thirtySecondsNanos
                    else config.resyncTimeNanos
      .ok { nspace := config.nspace, resyncTimeNanos := resync }
    else .error "failed to create clientset"

/-- The "Deployment updated" record emitted by the update event handler of
`DeploymentInformer.StartDeploymentInformer`
(`pkg/informer/informer.go:255-273`). -/
structure UpdateLogRecord where
  event : String
  deployment : String
  nspace : String
  oldReplicas : Int
  newReplicas : Int
  readyReplicas : Int
  oldVersion : String
  newVersion : String
  deriving DecidableEq, Repr

/-- The `UpdateFunc` event handler of
`DeploymentInformer.StartDeploymentInformer`
(`pkg/informer/informer.go:255-273`): the "Deployment updated" record is
emitted only when `oldDeployment.ResourceVersion` differs from
`newDeployment.ResourceVersion`; otherwise nothing is emitted.  (The Go
code dereferences `Spec.Replicas` for the replica fields; that is rendered
with a default of 0 here — the claim below concerns only when the record
is emitted at all.) -/
def updateFuncRecords (oldD newD : DeploymentSnap) : List UpdateLogRecord :=
  if oldD.resourceVersion ≠ newD.resourceVersion then
    [{ event := "UPDATE"
       deployment := newD.name
       nspace := newD.nspace
       oldReplicas := oldD.specReplicas.getD 0
       newReplicas := newD.specReplicas.getD 0
       readyReplicas := newD.readyReplicas
       oldVersion := oldD.resourceVersion
       newVersion := newD.resourceVersion }]
  else []

/-- Classification of a delivered snapshot transition by the informer's
handlers: a delivery with an absent old snapshot is an Add delivery and
never invokes `UpdateFunc` (so it contributes no update record); a
delivery with a present old snapshot runs `updateFuncRecords`. -/
def classifyUpdate : Option DeploymentSnap → DeploymentSnap → List UpdateLogRecord
  | none, _ => []
  | some oldD, newD => updateFuncRecords oldD newD

/-- Outcome of the package-level `StartDeploymentInformer`
(`pkg/informer/informer.go:24-57` of the earlier variant): either the
informer syncs and keeps watching until cancellation, or the process is
terminated via `os.Exit`. -/
inductive PkgStartOutcome where
  | watching
  | processExit (code : Int)
  deriving DecidableEq, Repr

/-- The package-level `StartDeploymentInformer` variant: after starting
the factory, a failed `factory.WaitForCacheSync` logs an error and calls
`os.Exit(1)`; a successful sync blocks watching events. -/
def startDeploymentInformerPkg (syncOk : Bool) : PkgStartOutcome :=
  if syncOk then .watching else .processExit 1

/-- The method `DeploymentInformer.StartDeploymentInformer`
(`pkg/informer/informer.go:240-318`): adding the event handler can fail
(error "failed to add event handler"); then a failed
`cache.WaitForCacheSync` returns the error
"failed to sync informer cache" to the caller; otherwise the informer
runs until cancellation and returns `nil`. -/
def startDeploymentInformerMethod (addHandlerOk syncOk : Bool) :
    Except String Unit :=
  if ¬ addHandlerOk then .error "failed to add event handler"
  else if ¬ syncOk then .error "failed to sync informer cache"
  else .ok ()

/-- The fields of a `corev1.Pod` read by the embedded code. -/
structure PodSnap where
  name : String
  nspace : String
  phase : String
  deriving DecidableEq, Repr

/-- The package-level informer variables
(`pkg/informer/informer.go:18-21`): `nil` until the corresponding start
function assigns them; once started, each holds the contents of the
informer's store. -/
structure InformerPkgState where
  deploymentInformer : Option (List DeploymentSnap)
  podInformer : Option (List PodSnap)
  deriving DecidableEq, Repr

/-- `GetDeploymentNames` (`pkg/informer/informer.go:121-132`): returns the
empty name list when the package-level deployment informer is still `nil`,
and the names of the deployments in its store otherwise (the store's
type assertion always succeeds in this typed model). -/
def GetDeploymentNames (s : InformerPkgState) : List String :=
  match s.deploymentInformer with
  | none => []
  | some store => store.map (·.name)

/-- `GetPodNames` (`pkg/informer/informer.go:135-146`): returns the empty
name list when the package-level pod informer is still `nil`, and the
names of the pods in its store otherwise. -/
def GetPodNames (s : InformerPkgState) : List String :=
  match s.podInformer with
  | none => []
  | some store => store.map (·.name)

/-- `getKubeconfigPath` (`cmd/list.go:142-153`): the `--kubeconfig` flag
when non-empty, else the `KUBECONFIG` environment variable when non-empty,
else `filepath.Join(home, ".kube", "config")` when a home directory is
known, else the empty string. -/
def getKubeconfigPath (kubeconfigFlag kubeconfigEnv homeDir : String) : String :=
  if kubeconfigFlag ≠ "" then kubeconfigFlag
  else if kubeconfigEnv ≠ "" then kubeconfigEnv
  else if homeDir ≠ "" then homeDir ++ "/.kube/config"
  else ""

/-- `getInformerKubeconfigPath` (`cmd/server.go:308-323` of the informer
variant): when `informerInCluster` is false, the same flag → environment →
home-directory chain as `getKubeconfigPath`; when `informerInCluster` is
true the function skips the chain and returns the empty string. -/
def getInformerKubeconfigPath (informerInCluster : Bool)
    (informerKubeconfig kubeconfigEnv homeDir : String) : String :=
  if ¬ informerInCluster then
    if informerKubeconfig ≠ "" then informerKubeconfig
    else if kubeconfigEnv ≠ "" then kubeconfigEnv
    else if homeDir ≠ "" then homeDir ++ "/.kube/config"
    else ""
  else ""

/-- The precedence chain exactly as the claim words it, written
independently of the source functions for comparison: the first non-empty
of the flag value, the environment variable, and the home-derived default
path, else the empty string. -/
def claimPrecedenceChain (flag env home : String) : String :=
  (([flag, env, if home = "" then "" else home ++ "/.kube/config"].find?
      fun s => s != "").getD "")

/-- Modelled from the spec: the `LeaseRecord` stored in the shared Lease
Store — holder identity (a replica index here), acquisition instant and
absolute renew deadline in logical time.  The executable leader-election
loop lives in the `controller-runtime` library (enabled by
`cmd/server.go:62-72`, `manager.Options.LeaderElection`), not in this
repository. -/
structure LeaseRecord where
  holderIdentity : Nat
  acquiredAt : Nat
  renewDeadline : Nat
  deriving DecidableEq, Repr

/-- Local role of one candidate replica (spec §4.5 states). -/
inductive LocalRole where
  | candidate
  | leader
  | follower
  deriving DecidableEq, Repr

/-- Local state of one candidate replica: its role and the lease record of
its last confirmed store write (`none` when it has none). -/
structure ReplicaState where
  role : LocalRole
  record : Option LeaseRecord
  deriving DecidableEq, Repr

/-- Modelled from the spec: global state of the election system — a
logical clock, the shared Lease Store content (mutated only by atomic
compare-and-swap steps), and the local state of every candidate replica,
indexed by `Nat` so any number of replicas is covered. -/
structure ElectionState where
  now : Nat
  store : Option LeaseRecord
  replicas : Nat → ReplicaState

/-- A lease record is valid (non-expired) at instant `now` when the renew
deadline has not yet been reached. -/
def leaseValid (now : Nat) (r : LeaseRecord) : Prop :=
  now < r.renewDeadline

instance (now : Nat) (r : LeaseRecord) : Decidable (leaseValid now r) := by
  unfold leaseValid
  infer_instance

/-- Modelled from the spec: the acquire-or-renew guard — the
compare-and-swap succeeds exactly when the record is absent, expired, or
already held by the caller; it fails when held by a live, non-expired
other identity. -/
def canAcquire (s : ElectionState) (i : Nat) : Prop :=
  s.store = none ∨
    ∃ r, s.store = some r ∧ (¬ leaseValid s.now r ∨ r.holderIdentity = i)

/-- Modelled from the spec (§4.5): one step of the election system under
an arbitrary interleaving of the replicas' operations.
`acquireSuccess` is a successful atomic acquire-or-renew: it writes a
fresh record with the caller's identity and deadline `now + term` and the
caller becomes Leader; `acquireFail` makes the caller a Follower without
touching the store; `demote` is the fail-safe demotion on a failed or
unconfirmed renewal; `release` is the graceful-shutdown clear of a lease
the caller itself holds; `tick` advances the logical clock. -/
inductive ElectionStep (term : Nat) : ElectionState → ElectionState → Prop
  | acquireSuccess (s : ElectionState) (i : Nat) (h : canAcquire s i) :
      ElectionStep term s
        { now := s.now
          store := some ⟨i, s.now, s.now + term⟩
          replicas := Function.update s.replicas i
            ⟨.leader, some ⟨i, s.now, s.now + term⟩⟩ }
  | acquireFail (s : ElectionState) (i : Nat) (h : ¬ canAcquire s i) :
      ElectionStep term s
        { now := s.now
          store := s.store
          replicas := Function.update s.replicas i ⟨.follower, none⟩ }
  | demote (s : ElectionState) (i : Nat) :
      ElectionStep term s
        { now := s.now
          store := s.store
          replicas := Function.update s.replicas i ⟨.candidate, none⟩ }
  | release (s : ElectionState) (i : Nat) (r : LeaseRecord)
      (hstore : s.store = some r) (hself : r.holderIdentity = i) :
      ElectionStep term s
        { now := s.now
          store := none
          replicas := Function.update s.replicas i ⟨.candidate, none⟩ }
  | tick (s : ElectionState) :
      ElectionStep term s { s with now := s.now + 1 }

/-- The initial election state: clock 0, empty store, every replica a
candidate holding nothing. -/
def electionInit : ElectionState :=
  { now := 0, store := none, replicas := fun _ => ⟨.candidate, none⟩ }

/-- States reachable from `electionInit` by any finite interleaving of
election steps. -/
def ElectionReachable (term : Nat) (s : ElectionState) : Prop :=
  Relation.ReflTransGen (ElectionStep term) electionInit s

/-- Replica `i` observes Leader state at the current logical instant: its
role is Leader and its last confirmed record is still valid
(non-expired). -/
def observesLeader (s : ElectionState) (i : Nat) : Prop :=
  (s.replicas i).role = .leader ∧
    ∃ r, (s.replicas i).record = some r ∧ leaseValid s.now r

/-- Inductive invariant of the election system: a replica that is Leader
with a still-valid confirmed record is exactly the one whose record sits
in the shared store. -/
def ElectionInv (s : ElectionState) : Prop :=
  ∀ i r, (s.replicas i).role = .leader → (s.replicas i).record = some r →
    leaseValid s.now r → s.store = some r ∧ r.holderIdentity = i

/-- The `MaxConcurrentReconciles` value configured by
`AddDeploymentController` (`pkg/ctrl/deployment_controller.go:127`,
`controller.Options{MaxConcurrentReconciles: 1}`), which is also the
option's default. -/
def maxConcurrentReconciles : Nat := 1

/-- A resource key: namespace and name (`types.NamespacedName`). -/
structure NamespacedName where
  nspace : String
  name : String
  deriving DecidableEq, Repr

/-- Modelled from the spec: state of the reconcile queue and worker pool —
the pending keys in queue order and the keys currently being reconciled.
The executable queue lives in the `controller-runtime` work-queue library,
configured by `AddDeploymentController`; the spec (§3, §4.6) requires at
most one pending request and at most one in-flight worker per key. -/
structure QueueState where
  pending : List NamespacedName
  inflight : List NamespacedName
  deriving DecidableEq, Repr

/-- Modelled from the spec (§4.6): one step of the queue/worker system.
`enqueueNew` adds a key not yet pending or in-flight; `enqueueDup` is the
idempotent no-op for a key already pending or in-flight; `dispatch` hands
a pending key to a worker, only while fewer than
`maxConcurrentReconciles` workers are busy; `finish` completes a worker
(on success, NotFound-as-success, or when the request is re-enqueued
later by backoff). -/
inductive QueueStep : QueueState → QueueState → Prop
  | enqueueNew (s : QueueState) (k : NamespacedName)
      (hp : k ∉ s.pending) (hi : k ∉ s.inflight) :
      QueueStep s ⟨s.pending ++ [k], s.inflight⟩
  | enqueueDup (s : QueueState) (k : NamespacedName)
      (h : k ∈ s.pending ∨ k ∈ s.inflight) :
      QueueStep s s
  | dispatch (s : QueueState) (k : NamespacedName)
      (hp : k ∈ s.pending)
      (hcap : s.inflight.length < maxConcurrentReconciles) :
      QueueStep s ⟨s.pending.erase k, s.inflight ++ [k]⟩
  | finish (s : QueueState) (k : NamespacedName) (hi : k ∈ s.inflight) :
      QueueStep s ⟨s.pending, s.inflight.erase k⟩

/-- The initial queue state: nothing pending, nothing in flight. -/
def queueInit : QueueState := ⟨[], []⟩

/-- Queue states reachable from the empty queue by any finite interleaving
of enqueue, dispatch and finish steps. -/
def QueueReachable (s : QueueState) : Prop :=
  Relation.ReflTransGen QueueStep queueInit s

/-- Inductive invariant of the queue system: no duplicate pending key, no
duplicate in-flight key, no key both pending and in-flight, and at most
`maxConcurrentReconciles` workers busy. -/
def QueueInv (s : QueueState) : Prop :=
  s.pending.Nodup ∧ s.inflight.Nodup ∧
    (∀ k, k ∈ s.pending → k ∉ s.inflight) ∧
    s.inflight.length ≤ maxConcurrentReconciles

/-- Direction of the desired-vs-current drift of a snapshot, used to
formalise the claims' side condition "the prior snapshot did not already
reflect the same direction of drift". -/
def driftDirection (d : DeploymentSnap) : Ordering :=
  compare d.currentReplicas (d.specReplicas.getD 0)

/-- The claims' side condition, as worded: the prior snapshot is present,
drifts (desired ≠ current), and drifts in the same direction as the new
snapshot. -/
def reflectsSameDrift : Option DeploymentSnap → DeploymentSnap → Bool
  | none, _ => false
  | some oldD, newD =>
    driftDirection oldD == driftDirection newD &&
      driftDirection newD != Ordering.eq

/-- The claim's condition-emission rule, as worded (C4): for condition
type `t` present in the new snapshot, a `ConditionChanged` should be
emitted exactly when `t` is newly present or its `(status, reason)` pair
differs from the old snapshot's condition of the same type. -/
def claimCondChangedOrNew (oldD newD : DeploymentSnap) (t : String) : Bool :=
  match newD.conditions.find? (fun c => c.ctype == t) with
  | none => false
  | some cn =>
    match oldD.conditions.find? (fun c => c.ctype == t) with
    | none => true
    | some co => !(co.status == cn.status && co.reason == cn.reason)

/-- How many `conditionChanged` signals for condition type `t` a signal
list carries. -/
def conditionChangedCount (sigs : List DerivedSignal) (t : String) : Nat :=
  (sigs.filter fun s =>
    match s with
    | .conditionChanged ct _ _ => ct == t
    | _ => false).length

/-- The spec's worked example, old snapshot: desired 3, current 3. -/
def exampleOldSnap : DeploymentSnap :=
  { name := "web", nspace := "default", resourceVersion := "10"
    specReplicas := some 3, currentReplicas := 3, readyReplicas := 3
    availableReplicas := 3, updatedReplicas := 3, conditions := [] }

/-- The spec's worked example, new snapshot: desired 5, current 3. -/
def exampleNewSnap : DeploymentSnap :=
  { name := "web", nspace := "default", resourceVersion := "11"
    specReplicas := some 5, currentReplicas := 3, readyReplicas := 3
    availableReplicas := 3, updatedReplicas := 3, conditions := [] }

/-- The Available condition of the spec's condition-transition example. -/
def availableCond : DeploymentCondition :=
  { ctype := "Available", status := "True"
    reason := "MinimumReplicasAvailable", message := "ok" }

/-- Old snapshot lacking any `Available` condition. -/
def condExOldSnap : DeploymentSnap :=
  { name := "web", nspace := "default", resourceVersion := "20"
    specReplicas := some 3, currentReplicas := 3, readyReplicas := 3
    availableReplicas := 3, updatedReplicas := 3, conditions := [] }

/-- New snapshot carrying exactly the `{Available, True,
MinimumReplicasAvailable}` condition, with no replica drift. -/
def condExNewSnap : DeploymentSnap :=
  { name := "web", nspace := "default", resourceVersion := "21"
    specReplicas := some 3, currentReplicas := 3, readyReplicas := 3
    availableReplicas := 3, updatedReplicas := 3
    conditions := [availableCond] }

/-- A snapshot whose `Available` condition already has the same
`(status, reason)` pair as `condExNewSnap`'s — an unchanged condition. -/
def condSameOldSnap : DeploymentSnap :=
  { name := "web", nspace := "default", resourceVersion := "19"
    specReplicas := some 3, currentReplicas := 3, readyReplicas := 3
    availableReplicas := 3, updatedReplicas := 3
    conditions := [availableCond] }

/-- Case analysis of the scaling block: it reduces to a two-way comparison
of current against desired replicas. -/
lemma scaleSignals_eq (d : DeploymentSnap) :
    scaleSignals d =
      if d.currentReplicas < d.specReplicas.getD 0 then
        [.scaleUp d.currentReplicas (d.specReplicas.getD 0)]
      else if d.specReplicas.getD 0 < d.currentReplicas then
        [.scaleDown d.currentReplicas (d.specReplicas.getD 0)]
      else [] := by
  simp only [scaleSignals]
  split_ifs <;> first | rfl | omega

/-- C2: whenever the new snapshot's desired replica count differs from its
current replica count and the prior snapshot did not already reflect the
same direction of drift, the classifier emits `ScaleUp` when desired >
current and `ScaleDown` when desired < current, carrying the from/to pair;
`Classify(old={desired:3,current:3}, new={desired:5,current:3})` yields
exactly `[ScaleUp{from:3,to:5}]`; and no scale signal is emitted when
desired equals current.  (The code emits from the new snapshot alone, so
the conclusion holds for every prior snapshot.) -/
theorem classify_scale_signals (oldSnap : Option DeploymentSnap)
    (newSnap : DeploymentSnap)
    (hdiff : newSnap.specReplicas.getD 0 ≠ newSnap.currentReplicas)
    (hdrift : reflectsSameDrift oldSnap newSnap = false) :
    (newSnap.currentReplicas < newSnap.specReplicas.getD 0 →
      scaleSignals newSnap =
        [.scaleUp newSnap.currentReplicas (newSnap.specReplicas.getD 0)]) ∧
    (newSnap.specReplicas.getD 0 < newSnap.currentReplicas →
      scaleSignals newSnap =
        [.scaleDown newSnap.currentReplicas (newSnap.specReplicas.getD 0)]) ∧
    logDeploymentEvent exampleNewSnap = [.scaleUp 3 5] ∧
    (∀ d : DeploymentSnap, d.specReplicas.getD 0 = d.currentReplicas →
      scaleSignals d = []) := by
  refine ⟨?_, ?_, by decide, ?_⟩
  · intro hlt
    rw [scaleSignals_eq]
    split_ifs <;> first | rfl | omega
  · intro hgt
    rw [scaleSignals_eq]
    split_ifs <;> first | rfl | omega
  · intro d hd
    rw [scaleSignals_eq]
    split_ifs <;> first | rfl | omega

/-- Witness for C2 at the spec's worked example. -/
theorem classify_scale_signals_witness :
    exampleNewSnap.specReplicas.getD 0 ≠ exampleNewSnap.currentReplicas ∧
    reflectsSameDrift (some exampleOldSnap) exampleNewSnap = false ∧
    scaleSignals exampleNewSnap = [.scaleUp 3 5] := by
  refine ⟨by decide, by decide, ?_⟩
  exact (classify_scale_signals (some exampleOldSnap) exampleNewSnap
    (by decide) (by decide)).1 (by decide)

/-- C3: a classification whose old snapshot is absent, or whose old and
new snapshots carry the same resource version, emits no derived record —
a duplicate delivery is a no-op — and classifying a snapshot against
itself emits nothing. -/
theorem classify_duplicate_noop (oldSnap newSnap dup : DeploymentSnap)
    (hsame : oldSnap.resourceVersion = newSnap.resourceVersion) :
    classifyUpdate none newSnap = [] ∧
    classifyUpdate (some oldSnap) newSnap = [] ∧
    classifyUpdate (some dup) dup = [] := by
  refine ⟨rfl, ?_, ?_⟩
  · simp [classifyUpdate, updateFuncRecords, hsame]
  · simp [classifyUpdate, updateFuncRecords]

/-- Witness for C3 at a concrete duplicate delivery. -/
theorem classify_duplicate_noop_witness :
    exampleOldSnap.resourceVersion = exampleOldSnap.resourceVersion ∧
    classifyUpdate (some exampleOldSnap) exampleOldSnap = [] :=
  ⟨rfl, (classify_duplicate_noop exampleOldSnap exampleOldSnap
      exampleOldSnap rfl).2.1⟩

/-- Counterexample to C4 as stated: with an old snapshot whose `Available`
condition already carries the identical `(status, reason)` pair, the claim
demands no `ConditionChanged` emission for that type, yet the conditions
loop of `logDeploymentEvent` emits one record per condition of the new
snapshot unconditionally. -/
theorem condition_signals_counterexample :
    ¬ (1 ≤ conditionChangedCount (logDeploymentEvent condExNewSnap) "Available" ↔
        claimCondChangedOrNew condSameOldSnap condExNewSnap "Available" = true) := by
  decide

/-- C4 (amended): for every condition present in the new snapshot the code
emits a `ConditionChanged` signal unconditionally, regardless of the old
snapshot; in particular an old snapshot lacking `Available` together with
a new snapshot whose only condition is
`{Available, True, MinimumReplicasAvailable}` yields exactly one
`ConditionChanged` signal for that type. -/
theorem condition_signals_unconditional (oldSnap : Option DeploymentSnap)
    (newSnap : DeploymentSnap) (c : DeploymentCondition)
    (hc : c ∈ newSnap.conditions) :
    1 ≤ conditionChangedCount (logDeploymentEvent newSnap) c.ctype ∧
    logDeploymentEvent condExNewSnap =
      [.conditionChanged "Available" "True" "MinimumReplicasAvailable"] := by
  refine ⟨?_, by decide⟩
  have hmem : DerivedSignal.conditionChanged c.ctype c.status c.reason ∈
      conditionSignals newSnap := List.mem_map_of_mem _ hc
  have hfil : DerivedSignal.conditionChanged c.ctype c.status c.reason ∈
      (logDeploymentEvent newSnap).filter fun s =>
        match s with
        | .conditionChanged ct _ _ => ct == c.ctype
        | _ => false := by
    refine List.mem_filter.mpr ⟨List.mem_append_right _ hmem, ?_⟩
    simp
  exact List.length_pos_of_mem hfil

/-- Witness for C4's amended claim at the condition-transition example. -/
theorem condition_signals_unconditional_witness :
    availableCond ∈ condExNewSnap.conditions ∧
    1 ≤ conditionChangedCount (logDeploymentEvent condExNewSnap)
      availableCond.ctype :=
  ⟨by decide, (condition_signals_unconditional none condExNewSnap
      availableCond (by decide)).1⟩

/-- C5: a reconcile invocation whose fetch reports NotFound returns
success — a `nil` error and the zero result, which requests no requeue. -/
theorem reconcile_notfound_success (e : FetchError)
    (h : e.isNotFound = true) :
    (Reconcile (.error e)).2.1 = none ∧
    (Reconcile (.error e)).1.requeue = false ∧
    (Reconcile (.error e)).1.requeueAfterNanos = 0 := by
  simp [Reconcile, ignoreNotFound, h, emptyResult]

/-- Witness for C5 at a concrete NotFound error. -/
theorem reconcile_notfound_success_witness :
    (FetchError.mk true "deployment not found").isNotFound = true ∧
    (Reconcile (.error (FetchError.mk true "deployment not found"))).2.1 = none :=
  ⟨rfl, (reconcile_notfound_success (FetchError.mk true "deployment not found")
      rfl).1⟩

/-- C6: an informer configuration naming no valid authentication method —
in-cluster mode off and an empty kubeconfig path — makes construction fail
with an error returned to the caller (the constructor is a single pass, so
nothing is retried), whatever the environment does; and with a valid
method whose external calls succeed the constructor returns a usable
informer. -/
theorem informer_config_error (env : KubeEnv) (config : InformerConfig)
    (hin : config.inCluster = false) (hkc : config.kubeconfig = "") :
    NewDeploymentInformer env config =
      .error "either kubeconfig path or in-cluster mode must be specified" ∧
    (∀ (env2 : KubeEnv) (cfg2 : InformerConfig),
      env2.newForConfigOk = true →
      (cfg2.inCluster = true ∧ env2.inClusterConfigOk = true) ∨
        (cfg2.inCluster = false ∧ cfg2.kubeconfig ≠ "" ∧
          env2.kubeconfigBuildOk = true) →
      ∃ di : DeploymentInformer, NewDeploymentInformer env2 cfg2 = .ok di) := by
  constructor
  · simp [NewDeploymentInformer, hin, hkc]
  · intro env2 cfg2 hnew hvalid
    refine ⟨⟨cfg2.nspace,
      if cfg2.resyncTimeNanos = 0 then thirtySecondsNanos
      else cfg2.resyncTimeNanos⟩, ?_⟩
    rcases hvalid with ⟨hic, hok⟩ | ⟨hic, hkc2, hok⟩
    · simp [NewDeploymentInformer, hic, hok, hnew]
    · simp [NewDeploymentInformer, hic, hkc2, hok, hnew]

/-- Witness for C6 at a concrete method-less configuration. -/
theorem informer_config_error_witness :
    (InformerConfig.mk "" false "default" 0).inCluster = false ∧
    (InformerConfig.mk "" false "default" 0).kubeconfig = "" ∧
    NewDeploymentInformer (KubeEnv.mk true true true)
        (InformerConfig.mk "" false "default" 0) =
      .error "either kubeconfig path or in-cluster mode must be specified" :=
  ⟨rfl, rfl, (informer_config_error (KubeEnv.mk true true true)
      (InformerConfig.mk "" false "default" 0) rfl rfl).1⟩

/-- C7: when the cache never reaches `hasSynced` within the deadline (the
sync wait reports failure), the method variant of the start operation
returns the startup error "failed to sync informer cache" to its caller,
and the package-level variant terminates with exit code 1 — neither
silently retries. -/
theorem sync_failure_surfaced (syncOk : Bool) (h : syncOk = false) :
    startDeploymentInformerMethod true syncOk =
      .error "failed to sync informer cache" ∧
    startDeploymentInformerPkg syncOk = .processExit 1 := by
  subst h
  exact ⟨rfl, rfl⟩

/-- Witness for C7 at a failed sync. -/
theorem sync_failure_surfaced_witness :
    (false = false) ∧
    startDeploymentInformerMethod true false =
      .error "failed to sync informer cache" ∧
    startDeploymentInformerPkg false = .processExit 1 :=
  ⟨rfl, sync_failure_surfaced false rfl⟩

/-- C9: while the package-level informer variables are still `nil` —
before the corresponding informer has been started — `GetDeploymentNames`
and `GetPodNames` return the empty name list instead of failing, so the
HTTP `/deployments` query is total before the informer runs. -/
theorem cache_getters_total_before_start (s : InformerPkgState)
    (hd : s.deploymentInformer = none) (hp : s.podInformer = none) :
    GetDeploymentNames s = [] ∧ GetPodNames s = [] := by
  constructor
  · simp [GetDeploymentNames, hd]
  · simp [GetPodNames, hp]

/-- Witness for C9 at the pristine package state. -/
theorem cache_getters_total_before_start_witness :
    (InformerPkgState.mk none none).deploymentInformer = none ∧
    GetDeploymentNames (InformerPkgState.mk none none) = [] ∧
    GetPodNames (InformerPkgState.mk none none) = [] := by
  have h := cache_getters_total_before_start (InformerPkgState.mk none none)
    rfl rfl
  exact ⟨rfl, h.1, h.2⟩

/-- Appending the fixed "/.kube/config" suffix never yields the empty
string. -/
lemma append_config_ne_empty (home : String) :
    home ++ "/.kube/config" ≠ "" := by
  intro h
  have hlen := congrArg String.length h
  rw [String.length_append] at hlen
  have h13 : ("/.kube/config" : String).length = 13 := by decide
  have h0 : ("" : String).length = 0 := rfl
  omega

/-- Case analysis of the claim's precedence chain: it agrees with a direct
flag → environment → home conditional. -/
lemma claimPrecedenceChain_eq (flag env home : String) :
    claimPrecedenceChain flag env home =
      if flag ≠ "" then flag
      else if env ≠ "" then env
      else if home ≠ "" then home ++ "/.kube/config"
      else "" := by
  by_cases hf : flag = ""
  · by_cases he : env = ""
    · by_cases hh : home = ""
      · simp [claimPrecedenceChain, List.find?, hf, he, hh]
      · have h3 : (home ++ "/.kube/config" != "") = true :=
          bne_iff_ne.mpr (append_config_ne_empty home)
        simp [claimPrecedenceChain, List.find?, hf, he, hh, h3]
    · have h2 : (env != "") = true := bne_iff_ne.mpr he
      simp [claimPrecedenceChain, List.find?, hf, he, h2]
  · have h1 : (flag != "") = true := bne_iff_ne.mpr hf
    simp [claimPrecedenceChain, List.find?, hf, h1]

/-- Counterexample to C10 as stated: with in-cluster mode enabled,
`getInformerKubeconfigPath` resolves to the empty string even though the
`--kubeconfig` flag value is non-empty, while the claimed precedence chain
resolves to the flag value. -/
theorem kubeconfig_precedence_counterexample :
    getInformerKubeconfigPath true "/cfg" "" "" = "" ∧
    claimPrecedenceChain "/cfg" "" "" = "/cfg" ∧
    getInformerKubeconfigPath true "/cfg" "" "" ≠
      claimPrecedenceChain "/cfg" "" "" := by
  refine ⟨rfl, by decide, by decide⟩

/-- C10 (amended): `getKubeconfigPath` resolves exactly by the claimed
flag → environment → home precedence chain for every combination of
inputs; `getInformerKubeconfigPath` follows the same chain whenever
in-cluster mode is off, and resolves to the empty string whenever
in-cluster mode is on, regardless of the other inputs. -/
theorem kubeconfig_precedence_amended (flag env home : String) :
    getKubeconfigPath flag env home = claimPrecedenceChain flag env home ∧
    getInformerKubeconfigPath false flag env home =
      claimPrecedenceChain flag env home ∧
    getInformerKubeconfigPath true flag env home = "" := by
  rw [claimPrecedenceChain_eq]
  exact ⟨rfl, rfl, rfl⟩

/-- The election invariant holds in the initial state: nobody is Leader. -/
lemma electionInv_init : ElectionInv electionInit := by
  intro i r hrole _ _
  simp [electionInit] at hrole

/-- Every election step preserves the election invariant. -/
lemma electionInv_step {term : Nat} {s s2 : ElectionState}
    (hinv : ElectionInv s) (hstep : ElectionStep term s s2) :
    ElectionInv s2 := by
  cases hstep with
  | acquireSuccess i h =>
    intro j r hrole hrec hval
    dsimp only at hrole hrec hval ⊢
    by_cases hj : j = i
    · subst hj
      rw [Function.update_same] at hrole hrec
      injection hrec with hrec
      subst hrec
      exact ⟨rfl, rfl⟩
    · rw [Function.update_noteq hj] at hrole hrec
      have hold := hinv j r hrole hrec hval
      rcases h with hnone | ⟨r2, hr2, hcase⟩
      · rw [hold.1] at hnone
        cases hnone
      · rw [hold.1] at hr2
        injection hr2 with hr2
        subst hr2
        rcases hcase with hexp | hholder
        · exact absurd hval hexp
        · exact absurd (hold.2.symm.trans hholder) hj
  | acquireFail i h =>
    intro j r hrole hrec hval
    dsimp only at hrole hrec hval ⊢
    by_cases hj : j = i
    · subst hj
      rw [Function.update_same] at hrole
      cases hrole
    · rw [Function.update_noteq hj] at hrole hrec
      exact hinv j r hrole hrec hval
  | demote i =>
    intro j r hrole hrec hval
    dsimp only at hrole hrec hval ⊢
    by_cases hj : j = i
    · subst hj
      rw [Function.update_same] at hrole
      cases hrole
    · rw [Function.update_noteq hj] at hrole hrec
      exact hinv j r hrole hrec hval
  | release i r0 hstore hself =>
    intro j r hrole hrec hval
    dsimp only at hrole hrec hval ⊢
    by_cases hj : j = i
    · subst hj
      rw [Function.update_same] at hrole
      cases hrole
    · rw [Function.update_noteq hj] at hrole hrec
      have hold := hinv j r hrole hrec hval
      rw [hold.1] at hstore
      injection hstore with hstore
      subst hstore
      exact absurd (hold.2.symm.trans hself) hj
  | tick =>
    intro j r hrole hrec hval
    dsimp only at hrole hrec hval ⊢
    have hval0 : leaseValid s.now r := by
      unfold leaseValid at hval ⊢
      omega
    exact hinv j r hrole hrec hval0

/-- The election invariant holds in every reachable state. -/
lemma electionInv_reachable {term : Nat} {s : ElectionState}
    (h : ElectionReachable term s) : ElectionInv s := by
  induction h with
  | refl => exact electionInv_init
  | tail _ hstep ih => exact electionInv_step ih hstep

/-- C1: leader safety — for any number of candidate replicas and any
interleaving of their acquire/renew/demote/release operations against the
compare-and-swap Lease Store, at most one replica observes Leader state
(is Leader holding a valid, non-expired lease record) at any logical
instant. -/
theorem leader_safety (term : Nat) (s : ElectionState)
    (hreach : ElectionReachable term s) (i j : Nat)
    (hi : observesLeader s i) (hj : observesLeader s j) : i = j := by
  have hinv := electionInv_reachable hreach
  obtain ⟨hrolei, ri, hreci, hvali⟩ := hi
  obtain ⟨hrolej, rj, hrecj, hvalj⟩ := hj
  have h1 := hinv i ri hrolei hreci hvali
  have h2 := hinv j rj hrolej hrecj hvalj
  rw [h1.1] at h2
  cases h2.1
  rw [← h1.2, h2.2]

/-- A state in which replica 0 has successfully acquired the lease with
term 5 directly from the initial state. -/
def demoElectionState : ElectionState :=
  { now := 0
    store := some ⟨0, 0, 5⟩
    replicas := Function.update electionInit.replicas 0
      ⟨.leader, some ⟨0, 0, 5⟩⟩ }

/-- Witness for C1 at a concrete reachable state with an active leader. -/
theorem leader_safety_witness :
    ElectionReachable 5 demoElectionState ∧
    observesLeader demoElectionState 0 ∧ (0 : Nat) = 0 := by
  have hreach : ElectionReachable 5 demoElectionState :=
    Relation.ReflTransGen.single
      (ElectionStep.acquireSuccess electionInit 0 (Or.inl rfl))
  have hobs : observesLeader demoElectionState 0 := by
    refine ⟨?_, ⟨0, 0, 5⟩, ?_, ?_⟩
    · simp [demoElectionState, Function.update_same]
    · simp [demoElectionState, Function.update_same]
    · decide
  exact ⟨hreach, hobs, leader_safety 5 demoElectionState hreach 0 0 hobs hobs⟩

/-- The queue invariant holds in the initial (empty) state. -/
lemma queueInv_init : QueueInv queueInit := by
  refine ⟨List.nodup_nil, List.nodup_nil, ?_, ?_⟩
  · intro k hk
    cases hk
  · simp [queueInit, maxConcurrentReconciles]

/-- Every queue step preserves the queue invariant. -/
lemma queueInv_step {s s2 : QueueState}
    (hinv : QueueInv s) (hstep : QueueStep s s2) : QueueInv s2 := by
  obtain ⟨hpn, hin, hdisj, hlen⟩ := hinv
  cases hstep with
  | enqueueNew k hp hi =>
    refine ⟨?_, hin, ?_, hlen⟩
    · rw [List.nodup_append]
      exact ⟨hpn, List.nodup_singleton k, by
        intro a ha hak
        rw [List.mem_singleton] at hak
        subst hak
        exact hp ha⟩
    · intro k2 hk2
      rcases List.mem_append.mp hk2 with h2 | h2
      · exact hdisj k2 h2
      · rw [List.mem_singleton] at h2
        subst h2
        exact hi
  | enqueueDup k h =>
    exact ⟨hpn, hin, hdisj, hlen⟩
  | dispatch k hp hcap =>
    have hknotin : k ∉ s.inflight := hdisj k hp
    refine ⟨hpn.erase k, ?_, ?_, ?_⟩
    · rw [List.nodup_append]
      exact ⟨hin, List.nodup_singleton k, by
        intro a ha hak
        rw [List.mem_singleton] at hak
        subst hak
        exact hknotin ha⟩
    · intro k2 hk2
      have hk2p : k2 ∈ s.pending := List.mem_of_mem_erase hk2
      have hk2ne : k2 ≠ k := ((List.Nodup.mem_erase_iff hpn).mp hk2).1
      intro hmem
      rcases List.mem_append.mp hmem with h2 | h2
      · exact hdisj k2 hk2p h2
      · rw [List.mem_singleton] at h2
        exact hk2ne h2
    · rw [List.length_append, List.length_singleton]
      omega
  | finish k hi =>
    refine ⟨hpn, hin.erase k, ?_, ?_⟩
    · intro k2 hk2 hmem
      exact hdisj k2 hk2 (List.mem_of_mem_erase hmem)
    · calc (s.inflight.erase k).length ≤ s.inflight.length :=
            (s.inflight.erase_sublist k).length_le
        _ ≤ maxConcurrentReconciles := hlen

/-- The queue invariant holds in every reachable queue state. -/
lemma queueInv_reachable {s : QueueState} (h : QueueReachable s) :
    QueueInv s := by
  induction h with
  | refl => exact queueInv_init
  | tail _ hstep ih => exact queueInv_step ih hstep

/-- C8: in every reachable state of the reconcile queue and worker pool,
at most `MaxConcurrentReconciles` reconciles run concurrently
system-wide, that bound is the configured default of 1, and no resource
key ever has more than one in-flight worker. -/
theorem reconcile_concurrency_bound (s : QueueState)
    (hreach : QueueReachable s) :
    s.inflight.length ≤ maxConcurrentReconciles ∧
    maxConcurrentReconciles = 1 ∧
    s.inflight.Nodup := by
  have hinv := queueInv_reachable hreach
  exact ⟨hinv.2.2.2, rfl, hinv.2.1⟩

/-- Witness for C8 at a reachable state with one dispatched key. -/
theorem reconcile_concurrency_bound_witness :
    QueueReachable ⟨[], [NamespacedName.mk "default" "web"]⟩ ∧
    ([NamespacedName.mk "default" "web"] : List NamespacedName).length ≤
      maxConcurrentReconciles := by
  have h1 : QueueStep queueInit ⟨[NamespacedName.mk "default" "web"], []⟩ :=
    QueueStep.enqueueNew queueInit (NamespacedName.mk "default" "web")
      (by simp [queueInit]) (by simp [queueInit])
  have h2 : QueueStep ⟨[NamespacedName.mk "default" "web"], []⟩
      ⟨[], [NamespacedName.mk "default" "web"]⟩ := by
    have := QueueStep.dispatch ⟨[NamespacedName.mk "default" "web"], []⟩
      (NamespacedName.mk "default" "web") (by simp)
      (by simp [maxConcurrentReconciles])
    simpa using this
  have hreach : QueueReachable ⟨[], [NamespacedName.mk "default" "web"]⟩ :=
    Relation.ReflTransGen.head h1 (Relation.ReflTransGen.single h2)
  exact ⟨hreach, (reconcile_concurrency_bound _ hreach).1⟩

end K8sController
